import Mathlib

/-!
# Intel Hub — verification of the tab-health-check cycle

Shallow embedding of the reproducible core of the `intel-hub` repository:

* `checkOne` (src/utils/checkOne.ts): the Status Prober;
* `GET` of src/app/api/ping/route.ts: the Proxy Endpoint (embedded as `pingGET`);
* the Dashboard Shell's state transitions (src/app/page.tsx): status record,
  active-tab persistence, and the rendering rule for the action affordances.

JavaScript values that matter to the code (parsed JSON bodies, thrown
values) are modelled by the inductive `JsVal`; machine-level details that
the code never observes (number representation beyond integer equality
with zero, prototype chains) are outside the model and are documented at
each definition.
-/

/-! ## JavaScript value model -/

/-- A JavaScript value as far as this codebase observes one: the JSON
values a `Response.json()` can produce, plus `undefined` (the result of
reading an absent property) and arbitrary thrown values.  Numbers are
modelled as integers; the only numeric observation the code makes is
truthiness (zero vs non-zero), and no probe body in this system carries a
non-integral number. -/
inductive JsVal where
  | undefined : JsVal
  | null : JsVal
  | bool : Bool → JsVal
  | num : Int → JsVal
  | str : String → JsVal
  | arr : List JsVal → JsVal
  | obj : List (String × JsVal) → JsVal

/-- JavaScript truthiness (`Boolean(v)`): `undefined`, `null`, `false`,
`0` and `""` are falsy; every object or array is truthy. -/
def JsVal.truthy : JsVal → Bool
  | .undefined => false
  | .null => false
  | .bool b => b
  | .num n => n != 0
  | .str s => s != ""
  | .arr _ => true
  | .obj _ => true

/-- Field lookup in an object literal.  A parsed JSON object has unique
keys (later duplicates overwrite earlier ones during parsing), so
first-match lookup agrees with JavaScript property access; an absent
property reads as `undefined`. -/
def lookupField : List (String × JsVal) → String → JsVal
  | [], _ => .undefined
  | (n, v) :: rest, name => if n = name then v else lookupField rest name

/-- Plain property access `v[name]` (as in `j.ok`): throws a `TypeError`
when the receiver is `null` or `undefined` (modelled by `Except.error`);
on a primitive the value is boxed and the properties this code reads
(`ok`) are `undefined`. -/
def jsGetField : JsVal → String → Except Unit JsVal
  | .undefined, _ => .error ()
  | .null, _ => .error ()
  | .obj fields, name => .ok (lookupField fields name)
  | _, _ => .ok .undefined

/-- Optional-chained property access `v?.[name]` (as in `e?.message`):
yields `undefined` on a nullish receiver instead of throwing. -/
def optChainField : JsVal → String → JsVal
  | .undefined, _ => .undefined
  | .null, _ => .undefined
  | .obj fields, name => lookupField fields name
  | _, _ => .undefined

/-- The nullish-coalescing operator `v ?? fallback`: keeps `v` unless it
is `null` or `undefined`. -/
def nullishCoalesce (v fallback : JsVal) : JsVal :=
  match v with
  | .undefined => fallback
  | .null => fallback
  | _ => v

/-- `v` is `null` or `undefined`. -/
def JsVal.isNullish : JsVal → Bool
  | .undefined => true
  | .null => true
  | _ => false

/-! ## Data model of the shell (src/utils/checkOne.ts, src/app/page.tsx) -/

/-- `type TabKey = "worldmonitor" | "deltaintel"`. -/
inductive TabKey where
  | worldmonitor : TabKey
  | deltaintel : TabKey
deriving DecidableEq, Repr

/-- `type TabStatus = "checking" | "online" | "offline"`. -/
inductive TabStatus where
  | checking : TabStatus
  | online : TabStatus
  | offline : TabStatus
deriving DecidableEq, Repr

/-- `Record<TabKey, TabStatus>`: the closed-key union type forces exactly
one entry per tab key, so the record is a structure with one field per
key. -/
structure StatusRecord where
  worldmonitor : TabStatus
  deltaintel : TabStatus
deriving DecidableEq, Repr

/-- Read one tab's entry out of the record. -/
def StatusRecord.get (s : StatusRecord) : TabKey → TabStatus
  | .worldmonitor => s.worldmonitor
  | .deltaintel => s.deltaintel

/-- The spread update `(s) => ({ ...s, [key]: v })` used by every status
updater in `checkOne`: copy the record and replace the one entry. -/
def spreadSet (s : StatusRecord) (key : TabKey) (v : TabStatus) : StatusRecord :=
  match key with
  | .worldmonitor => { s with worldmonitor := v }
  | .deltaintel => { s with deltaintel := v }

/-- Initial state of `useState` in `Home`:
`{ worldmonitor: "checking", deltaintel: "checking" }`. -/
def initialStatus : StatusRecord :=
  { worldmonitor := .checking, deltaintel := .checking }

/-! ## Status Prober (`checkOne`, src/utils/checkOne.ts) -/

/-- Oracle for the two awaited steps of `checkOne`: the
`fetchFn(...)`/`r.json()` pair either throws at the fetch, throws at the
JSON parse, or yields a parsed body `j`. -/
inductive FetchOutcome where
  | fetchThrow : FetchOutcome
  | jsonThrow : FetchOutcome
  | value : JsVal → FetchOutcome

/-- One probe cycle of `checkOne`, as the sequence of status records
produced by its `setStatus` calls (each applying its functional updater
to the state left by the previous one).  Mirrors the source line by
line: first `setStatus((s) => ({ ...s, [key]: "checking" }))`; then, in
the `try`, `setStatus((s) => ({ ...s, [key]: j.ok ? "online" : "offline" }))`;
the `catch` sets `"offline"`.  The updater is applied at the point of the
`setStatus` call (the `StatusSetter` contract), so a `TypeError` from
`j.ok` on a nullish body is raised inside the `try` and lands in the
`catch`. -/
def checkOne (key : TabKey) (outcome : FetchOutcome) (s0 : StatusRecord) :
    List StatusRecord :=
  let s1 := spreadSet s0 key .checking
  match outcome with
  | .fetchThrow => [s1, spreadSet s1 key .offline]
  | .jsonThrow => [s1, spreadSet s1 key .offline]
  | .value j =>
    match jsGetField j "ok" with
    | .ok v => [s1, spreadSet s1 key (if v.truthy then .online else .offline)]
    | .error _ => [s1, spreadSet s1 key .offline]

/-- The terminal status a probe cycle reports for its key. -/
def terminalStatus (outcome : FetchOutcome) : TabStatus :=
  match outcome with
  | .fetchThrow => .offline
  | .jsonThrow => .offline
  | .value j =>
    match jsGetField j "ok" with
    | .ok v => if v.truthy then .online else .offline
    | .error _ => .offline

/-- The truthiness of `j.ok` as `checkOne` evaluates it (false when the
access itself throws, since the `catch` then reports offline). -/
def okTruthy (outcome : FetchOutcome) : Bool :=
  match outcome with
  | .value j =>
    match jsGetField j "ok" with
    | .ok v => v.truthy
    | .error _ => false
  | _ => false

/-! ## Proxy Endpoint (`GET`, src/app/api/ping/route.ts) -/

/-- `URLSearchParams.get(name)`: the first value bound to `name`, or
`null` (here `none`) when the parameter is absent. -/
def searchParamsGet : List (String × String) → String → Option String
  | [], _ => none
  | (n, v) :: rest, name => if n = name then some v else searchParamsGet rest name

/-- Outcome of the route's outbound `fetch(url, ...)`: the target either
answers with some HTTP status, or the promise rejects with a thrown
value `e`. -/
inductive OutboundResult where
  | completes : Nat → OutboundResult
  | throws : JsVal → OutboundResult

/-- `Response.ok` of the Fetch standard: the status is in the range
200–299 inclusive. -/
def responseOk (status : Nat) : Bool :=
  decide (200 ≤ status) && decide (status ≤ 299)

/-- A response produced by the route handler: its own HTTP status and
its JSON body. -/
structure RouteResponse where
  status : Nat
  body : JsVal

/-- The 400 body for a missing or empty `url` parameter. -/
def missingUrlBody : JsVal :=
  .obj [("ok", .bool false), ("error", .str "Missing url")]

/-- The route handler `GET` of src/app/api/ping/route.ts, over the
request's parsed query parameters and the outcome of the outbound fetch.
`if (!url)` rejects both a `null` and an empty-string parameter with 400;
a completed target fetch is reported as `{ ok: res.ok, status: res.status }`
in a 200 response (`NextResponse.json` defaults to status 200); a thrown
`e` is reported as `{ ok: false, error: e?.message ?? "Failed" }`, also
with status 200. -/
def pingGET (params : List (String × String)) (res : OutboundResult) :
    RouteResponse :=
  match searchParamsGet params "url" with
  | none => ⟨400, missingUrlBody⟩
  | some u =>
    if u = "" then ⟨400, missingUrlBody⟩
    else
      match res with
      | .completes st =>
        ⟨200, .obj [("ok", .bool (responseOk st)), ("status", .num st)]⟩
      | .throws e =>
        ⟨200, .obj [("ok", .bool false),
          ("error", nullishCoalesce (optChainField e "message") (.str "Failed"))]⟩

/-! ## Active-tab persistence (src/app/page.tsx) -/

/-- The `localStorage` key `"intelHub.activeTab"`. -/
def activeTabStoreKey : String := "intelHub.activeTab"

/-- The initial `useState<TabKey>("worldmonitor")` value: the default
active tab. -/
def defaultActiveTab : TabKey := .worldmonitor

/-- The string a `TabKey` serialises to (the union member itself). -/
def TabKey.toStr : TabKey → String
  | .worldmonitor => "worldmonitor"
  | .deltaintel => "deltaintel"

/-- `localStorage` as an association list; `getItem` returns the stored
string or `null` (`none`). -/
def storeGet : List (String × String) → String → Option String
  | [], _ => none
  | (k, v) :: rest, name => if k = name then some v else storeGet rest name

/-- `localStorage.setItem`: replace or insert the binding. -/
def storeSet : List (String × String) → String → String → List (String × String)
  | [], name, v => [(name, v)]
  | (k, w) :: rest, name, v =>
    if k = name then (name, v) :: rest else (k, w) :: storeSet rest name v

/-- The mount effect of `Home`: read `"intelHub.activeTab"`; if the saved
value is `"worldmonitor"` or `"deltaintel"`, activate it, otherwise keep
the default initial selection. -/
def restoreActive (saved : Option String) : TabKey :=
  match saved with
  | some s =>
    if s = "worldmonitor" then .worldmonitor
    else if s = "deltaintel" then .deltaintel
    else defaultActiveTab
  | none => defaultActiveTab

/-- A user tab click: `setActive(t.key)` followed by the persistence
effect `localStorage.setItem("intelHub.activeTab", active)`, which runs
immediately on every change of `active`.  Returns the new selection and
the new store. -/
def selectTab (store : List (String × String)) (k : TabKey) :
    TabKey × List (String × String) :=
  (k, storeSet store activeTabStoreKey k.toStr)

/-! ## Rendering rule for action affordances (src/app/page.tsx) -/

/-- How a tab's content is rendered in the revision of `Home` with the
integrated Delta Intel tab: `worldmonitor` is an embedded iframe pointing
at a real URL and is probed; `deltaintel` is a native in-process
component, labeled statically `"integrated"` and never probed. -/
inductive RenderMode where
  | embedded : RenderMode
  | integrated : RenderMode
deriving DecidableEq, Repr

/-- Per-tab render mode in the integrated revision of `Home`:
`worldmonitor` via `<iframe src={WM}>`, `deltaintel` via
`<DeltaDashboard />`. -/
def tabRenderMode : TabKey → RenderMode
  | .worldmonitor => .embedded
  | .deltaintel => .integrated

/-- The header's action block in the integrated revision:
`{active === "worldmonitor" && (<button>Open in new tab</button>
<button>Refresh status</button>)}` — the affordances are rendered exactly
when the active tab is `worldmonitor`. -/
def showActionAffordances (active : TabKey) : Bool :=
  active = .worldmonitor

/-- In the earlier revision of `Home` both tabs are embedded iframes and
probed. -/
def tabRenderModeAllEmbedded : TabKey → RenderMode :=
  fun _ => .embedded

/-- In the earlier revision the two action buttons are rendered
unconditionally. -/
def showActionAffordancesAllTabs (_active : TabKey) : Bool := true

/-! ## Probe-cycle traces (for the Status Record invariant) -/

/-- An observable status update of the shell: the synchronous
`"checking"` update at the start of a probe cycle, or the terminal update
when the cycle's asynchronous work resolves. -/
inductive ProbeEvent where
  | start : TabKey → ProbeEvent
  | resolve : TabKey → TabStatus → ProbeEvent
deriving DecidableEq, Repr

/-- The key an event updates. -/
def ProbeEvent.key : ProbeEvent → TabKey
  | .start k => k
  | .resolve k _ => k

/-- Apply one status update to the record (both updates are the spread
merge of `checkOne`). -/
def applyEvent (s : StatusRecord) : ProbeEvent → StatusRecord
  | .start k => spreadSet s k .checking
  | .resolve k st => spreadSet s k st

/-- Run a trace of updates left to right. -/
def runTrace (s : StatusRecord) : List ProbeEvent → StatusRecord
  | [] => s
  | e :: rest => runTrace (applyEvent s e) rest

/-- The two updates one `checkOne` invocation contributes, in order. -/
def cycleEvents (key : TabKey) (outcome : FetchOutcome) : List ProbeEvent :=
  [.start key, .resolve key (terminalStatus outcome)]

/-- `Interleaving xs ys zs`: `zs` is an order-preserving merge of `xs`
and `ys` — the possible global orders of two concurrently running probe
cycles' updates. -/
inductive Interleaving : List ProbeEvent → List ProbeEvent → List ProbeEvent → Prop where
  | nil : Interleaving [] [] []
  | left : ∀ {x xs ys zs}, Interleaving xs ys zs → Interleaving (x :: xs) ys (x :: zs)
  | right : ∀ {xs y ys zs}, Interleaving xs ys zs → Interleaving xs (y :: ys) (y :: zs)

/-- `seqPerKey k pending tr`: along `tr`, the events for key `k`
alternate start/resolve (no two probe cycles for `k` overlap).  `pending`
records whether a cycle for `k` is currently in flight. -/
def seqPerKey (k : TabKey) : Bool → List ProbeEvent → Bool
  | _, [] => true
  | pending, e :: rest =>
    if e.key = k then
      match e, pending with
      | .start _, false => seqPerKey k true rest
      | .resolve _ _, true => seqPerKey k false rest
      | _, _ => false
    else seqPerKey k pending rest

/-- The states visited while running a trace, starting state included. -/
def traceStates (s : StatusRecord) : List ProbeEvent → List StatusRecord
  | [] => [s]
  | e :: rest => s :: traceStates (applyEvent s e) rest

/-- The keys of the Status Record, in declaration order: the record has
exactly one entry per configured tab. -/
def StatusRecord.keys (_s : StatusRecord) : List TabKey :=
  [.worldmonitor, .deltaintel]

/-! ## URL percent-encoding (C7: `encodeURIComponent` and the
`URLSearchParams` round trip), at the byte level.

`encodeURIComponent(url)` operates on the UTF-8 bytes of its argument:
each byte outside the unescaped set `A–Z a–z 0–9 - _ . ! ~ * ' ( )` is
written as `%` followed by two uppercase hex digits.  The route's
`new URL(req.url).searchParams.get("url")` parses the query as
application/x-www-form-urlencoded: split on `&`, split each piece at its
first `=`, map `+` to space and `%hh` to the byte `hh`.  The model works
on the byte sequences (`List Nat`, each element < 256), which is also the
grain at which the claim's round trip ("byte-for-byte") is stated. -/

/-- The bytes `encodeURIComponent` leaves unescaped: ASCII alphanumerics
and `- . ! _ ~ * ' ( )`. -/
def uriUnescapedByte (b : Nat) : Bool :=
  (decide (48 ≤ b) && decide (b ≤ 57)) ||
  (decide (65 ≤ b) && decide (b ≤ 90)) ||
  (decide (97 ≤ b) && decide (b ≤ 122)) ||
  b == 45 || b == 46 || b == 33 || b == 95 || b == 126 ||
  b == 42 || b == 39 || b == 40 || b == 41

/-- ASCII code of the uppercase hex digit for a nibble `n < 16`. -/
def hexDigitChar (n : Nat) : Nat :=
  if n < 10 then 48 + n else 55 + n

/-- How `encodeURIComponent` renders one byte: kept verbatim when
unescaped, else `%` (37) and two hex digits. -/
def encodeByte (b : Nat) : List Nat :=
  if uriUnescapedByte b then [b]
  else [37, hexDigitChar (b / 16), hexDigitChar (b % 16)]

/-- `encodeURIComponent` over a byte sequence. -/
def encodeURIComponentBytes : List Nat → List Nat
  | [] => []
  | b :: rest => encodeByte b ++ encodeURIComponentBytes rest

/-- Numeric value of an ASCII hex digit (both cases), if it is one. -/
def hexVal (c : Nat) : Option Nat :=
  if 48 ≤ c ∧ c ≤ 57 then some (c - 48)
  else if 65 ≤ c ∧ c ≤ 70 then some (c - 55)
  else if 97 ≤ c ∧ c ≤ 102 then some (c - 87)
  else none

/-- A byte that is not part of a valid escape: `+` (43) becomes space
(32), everything else is kept verbatim. -/
def decodeOneByte (b : Nat) : Nat :=
  if b = 43 then 32 else b

/-- The WHATWG urlencoded byte deserializer for one token: `+` (43)
becomes space (32); `%` (37) followed by two hex digits becomes that
byte; a malformed `%` is kept verbatim. -/
def percentDecodeBytes : List Nat → List Nat
  | [] => []
  | b :: c1 :: c2 :: rest =>
    if b = 37 then
      match hexVal c1, hexVal c2 with
      | some h, some l => (16 * h + l) :: percentDecodeBytes rest
      | _, _ => decodeOneByte b :: percentDecodeBytes (c1 :: c2 :: rest)
    else decodeOneByte b :: percentDecodeBytes (c1 :: c2 :: rest)
  | b :: rest => decodeOneByte b :: percentDecodeBytes rest

/-- The query of a URL: everything after the first `?` (63). -/
def afterQuestionMark : List Nat → List Nat
  | [] => []
  | b :: rest => if b = 63 then rest else afterQuestionMark rest

/-- A query ends at a fragment delimiter `#` (35). -/
def takeUntilHash : List Nat → List Nat
  | [] => []
  | b :: rest => if b = 35 then [] else b :: takeUntilHash rest

/-- The query string `new URL(u)` exposes. -/
def queryOf (url : List Nat) : List Nat :=
  takeUntilHash (afterQuestionMark url)

/-- Split a query on `&` (38). -/
def splitOnAmp : List Nat → List (List Nat)
  | [] => [[]]
  | b :: rest =>
    if b = 38 then [] :: splitOnAmp rest
    else
      match splitOnAmp rest with
      | [] => [[b]]
      | g :: gs => (b :: g) :: gs

/-- Split one `name=value` piece at its first `=` (61); a piece with no
`=` is a name with empty value. -/
def splitFirstEq : List Nat → List Nat × List Nat
  | [] => ([], [])
  | b :: rest =>
    if b = 61 then ([], rest)
    else ((b :: (splitFirstEq rest).1), (splitFirstEq rest).2)

/-- The WHATWG application/x-www-form-urlencoded parser: split on `&`,
drop empty pieces, split each at its first `=`, byte-decode both
halves. -/
def parseUrlEncoded (q : List Nat) : List (List Nat × List Nat) :=
  ((splitOnAmp q).filter (fun p => !p.isEmpty)).map
    (fun p => (percentDecodeBytes (splitFirstEq p).1,
               percentDecodeBytes (splitFirstEq p).2))

/-- `searchParams.get(name)` at the byte level: the first value bound to
`name`. -/
def getParamBytes (q : List Nat) (name : List Nat) : Option (List Nat) :=
  ((parseUrlEncoded q).find? (fun p => p.1 = name)).map (fun p => p.2)

/-- Bytes of `"/api/ping?url="`, the literal prefix of the request the
prober builds on line 34 of src/utils/checkOne.ts. -/
def pingPathBytes : List Nat :=
  [47, 97, 112, 105, 47, 112, 105, 110, 103, 63, 117, 114, 108, 61]

/-- Bytes of the parameter name `"url"`. -/
def urlParamNameBytes : List Nat := [117, 114, 108]

/-- The request URL `checkOne` fetches:
`/api/ping?url=${encodeURIComponent(url)}`. -/
def checkOneRequestURL (u : List Nat) : List Nat :=
  pingPathBytes ++ encodeURIComponentBytes u

/-! ## Helper lemmas -/

theorem get_spreadSet_same (s : StatusRecord) (k : TabKey) (v : TabStatus) :
    (spreadSet s k v).get k = v := by
  cases k <;> rfl

theorem get_spreadSet_other (s : StatusRecord) (k k2 : TabKey) (v : TabStatus)
    (h : k2 ≠ k) : (spreadSet s k v).get k2 = s.get k2 := by
  cases k <;> cases k2 <;> first | rfl | exact absurd rfl h

/-- `checkOne` always produces exactly the synchronous checking update
followed by the terminal update. -/
theorem checkOne_eq (key : TabKey) (outcome : FetchOutcome) (s0 : StatusRecord) :
    checkOne key outcome s0 =
      [spreadSet s0 key .checking,
       spreadSet (spreadSet s0 key .checking) key (terminalStatus outcome)] := by
  cases outcome with
  | fetchThrow => rfl
  | jsonThrow => rfl
  | value j =>
    cases h : jsGetField j "ok" with
    | ok v => simp [checkOne, terminalStatus, h]
    | error e => simp [checkOne, terminalStatus, h]

theorem terminalStatus_online_or_offline (outcome : FetchOutcome) :
    terminalStatus outcome = .online ∨ terminalStatus outcome = .offline := by
  cases outcome with
  | fetchThrow => exact Or.inr rfl
  | jsonThrow => exact Or.inr rfl
  | value j =>
    cases h : jsGetField j "ok" with
    | ok v =>
      by_cases hv : v.truthy
      · exact Or.inl (by simp [terminalStatus, h, hv])
      · exact Or.inr (by simp [terminalStatus, h, hv])
    | error e => exact Or.inr (by simp [terminalStatus, h])

theorem nullishCoalesce_of_not_nullish (v f : JsVal) (h : v.isNullish = false) :
    nullishCoalesce v f = v := by
  cases v <;> simp_all [JsVal.isNullish, nullishCoalesce]

theorem nullishCoalesce_of_nullish (v f : JsVal) (h : v.isNullish = true) :
    nullishCoalesce v f = f := by
  cases v <;> simp_all [JsVal.isNullish, nullishCoalesce]

theorem storeGet_storeSet_same (store : List (String × String)) (name v : String) :
    storeGet (storeSet store name v) name = some v := by
  induction store with
  | nil => simp [storeGet, storeSet]
  | cons p rest ih =>
    by_cases h : p.1 = name
    · simp [storeGet, storeSet, h]
    · simp [storeGet, storeSet, h, ih]

theorem restoreActive_toStr (k : TabKey) :
    restoreActive (some k.toStr) = k := by
  cases k <;> rfl

/-! ## Claim theorems -/

/-- C1: the Status Prober's terminal status is "online" exactly when the
probe response body's `ok` field is truthy; a falsy, `null` or absent
`ok`, and a throw at the fetch or at the JSON parse, all terminate in
"offline". -/
theorem checkOne_terminal_status_law (key : TabKey) (s0 : StatusRecord) :
    (∀ j : JsVal,
      ((((checkOne key (.value j) s0).getLastD s0).get key = .online) ↔
        ∃ v, jsGetField j "ok" = .ok v ∧ v.truthy = true) ∧
      ((((checkOne key (.value j) s0).getLastD s0).get key = .offline) ↔
        ¬ ∃ v, jsGetField j "ok" = .ok v ∧ v.truthy = true)) ∧
    ((checkOne key .fetchThrow s0).getLastD s0).get key = .offline ∧
    ((checkOne key .jsonThrow s0).getLastD s0).get key = .offline := by
  refine ⟨fun j => ?_, ?_, ?_⟩
  · rw [checkOne_eq]
    simp only [List.getLastD, get_spreadSet_same]
    cases h : jsGetField j "ok" with
    | ok v =>
      by_cases hv : v.truthy <;>
        simp [terminalStatus, h, hv, get_spreadSet_same]
    | error e => simp [terminalStatus, h, get_spreadSet_same]
  · rw [checkOne_eq]; simp [List.getLastD, get_spreadSet_same, terminalStatus]
  · rw [checkOne_eq]; simp [List.getLastD, get_spreadSet_same, terminalStatus]

/-- C2: one `checkOne` invocation makes exactly two status updates for
its key — first "checking", then "online" or "offline" — and each update
leaves every other tab key's entry of the previous mapping unchanged. -/
theorem checkOne_exactly_two_updates (key k2 : TabKey) (outcome : FetchOutcome)
    (s0 : StatusRecord) (hk : k2 ≠ key) :
    (checkOne key outcome s0).length = 2 ∧
    ((checkOne key outcome s0).getD 0 s0).get key = .checking ∧
    (((checkOne key outcome s0).getD 1 s0).get key = .online ∨
      ((checkOne key outcome s0).getD 1 s0).get key = .offline) ∧
    ((checkOne key outcome s0).getD 0 s0).get k2 = s0.get k2 ∧
    ((checkOne key outcome s0).getD 1 s0).get k2 =
      ((checkOne key outcome s0).getD 0 s0).get k2 := by
  rw [checkOne_eq]
  refine ⟨rfl, get_spreadSet_same .., ?_, ?_, ?_⟩
  · simpa [List.getD, get_spreadSet_same] using
      terminalStatus_online_or_offline outcome
  · simpa [List.getD] using get_spreadSet_other s0 key k2 .checking hk
  · simpa [List.getD] using
      get_spreadSet_other (spreadSet s0 key .checking) key k2
        (terminalStatus outcome) hk

/-- Witness for C2 at a concrete input: key `worldmonitor`, a fetch
throw, the all-online starting record, and other key `deltaintel`. -/
theorem checkOne_exactly_two_updates_witness :
    (TabKey.deltaintel ≠ TabKey.worldmonitor) ∧
    ((checkOne .worldmonitor .fetchThrow ⟨.online, .online⟩).length = 2 ∧
     ((checkOne .worldmonitor .fetchThrow ⟨.online, .online⟩).getD 0
        ⟨.online, .online⟩).get .worldmonitor = .checking ∧
     (((checkOne .worldmonitor .fetchThrow ⟨.online, .online⟩).getD 1
        ⟨.online, .online⟩).get .worldmonitor = .online ∨
      ((checkOne .worldmonitor .fetchThrow ⟨.online, .online⟩).getD 1
        ⟨.online, .online⟩).get .worldmonitor = .offline) ∧
     ((checkOne .worldmonitor .fetchThrow ⟨.online, .online⟩).getD 0
        ⟨.online, .online⟩).get .deltaintel = .online ∧
     ((checkOne .worldmonitor .fetchThrow ⟨.online, .online⟩).getD 1
        ⟨.online, .online⟩).get .deltaintel =
       ((checkOne .worldmonitor .fetchThrow ⟨.online, .online⟩).getD 0
        ⟨.online, .online⟩).get .deltaintel) := by
  have h :=
    checkOne_exactly_two_updates .worldmonitor .deltaintel .fetchThrow
      ⟨.online, .online⟩ (by decide)
  refine ⟨by decide, ?_⟩
  simpa [StatusRecord.get] using h

/-- C3: when the outbound fetch completes with any HTTP status `st`, the
endpoint answers with its own status 200 and body
`{ ok: responseOk st, status: st }`, where `responseOk st` is true
exactly when `st` lies in 200–299. -/
theorem pingGET_completes_normalizes (params : List (String × String))
    (u : String) (st : Nat)
    (hu : searchParamsGet params "url" = some u) (hne : u ≠ "") :
    pingGET params (.completes st) =
      ⟨200, .obj [("ok", .bool (responseOk st)), ("status", .num st)]⟩ ∧
    (responseOk st = true ↔ 200 ≤ st ∧ st ≤ 299) := by
  constructor
  · simp [pingGET, hu, hne]
  · simp [responseOk]

/-- Witness for C3: target status 404 through a singleton parameter
list. -/
theorem pingGET_completes_normalizes_witness :
    (searchParamsGet [("url", "http://example.com")] "url" =
      some "http://example.com") ∧
    ("http://example.com" ≠ "") ∧
    (pingGET [("url", "http://example.com")] (.completes 404) =
      ⟨200, .obj [("ok", .bool (responseOk 404)), ("status", .num 404)]⟩ ∧
     (responseOk 404 = true ↔ 200 ≤ 404 ∧ 404 ≤ 299)) := by
  refine ⟨by decide, by decide, ?_⟩
  exact pingGET_completes_normalizes [("url", "http://example.com")]
    "http://example.com" 404 (by decide) (by decide)

/-- C4: a thrown outbound fetch never escapes the route: the response is
its own 200 with body `{ ok: false, error: m }`, where `m` is the thrown
value's `message` when it has one and the fallback string `"Failed"`
when the failure carries no message. -/
theorem pingGET_throws_never_propagates (params : List (String × String))
    (u : String) (e : JsVal)
    (hu : searchParamsGet params "url" = some u) (hne : u ≠ "") :
    (pingGET params (.throws e)).status = 200 ∧
    (pingGET params (.throws e)).body =
      .obj [("ok", .bool false),
        ("error", nullishCoalesce (optChainField e "message") (.str "Failed"))] ∧
    ((optChainField e "message").isNullish = false →
      (pingGET params (.throws e)).body =
        .obj [("ok", .bool false), ("error", optChainField e "message")]) ∧
    ((optChainField e "message").isNullish = true →
      (pingGET params (.throws e)).body =
        .obj [("ok", .bool false), ("error", .str "Failed")]) := by
  refine ⟨?_, ?_, ?_, ?_⟩
  · simp [pingGET, hu, hne]
  · simp [pingGET, hu, hne]
  · intro h
    simp [pingGET, hu, hne, nullishCoalesce_of_not_nullish _ _ h]
  · intro h
    simp [pingGET, hu, hne, nullishCoalesce_of_nullish _ _ h]

/-- Witness for C4: an `Error` whose `message` is
`"getaddrinfo ENOTFOUND"`. -/
theorem pingGET_throws_never_propagates_witness :
    (searchParamsGet [("url", "http://x")] "url" = some "http://x") ∧
    ("http://x" ≠ "") ∧
    ((pingGET [("url", "http://x")]
        (.throws (.obj [("message", .str "getaddrinfo ENOTFOUND")]))).status = 200 ∧
     (pingGET [("url", "http://x")]
        (.throws (.obj [("message", .str "getaddrinfo ENOTFOUND")]))).body =
       .obj [("ok", .bool false),
         ("error", nullishCoalesce
           (optChainField (.obj [("message", .str "getaddrinfo ENOTFOUND")]) "message")
           (.str "Failed"))] ∧
     ((optChainField (.obj [("message", .str "getaddrinfo ENOTFOUND")])
          "message").isNullish = false →
       (pingGET [("url", "http://x")]
          (.throws (.obj [("message", .str "getaddrinfo ENOTFOUND")]))).body =
         .obj [("ok", .bool false),
           ("error", optChainField
             (.obj [("message", .str "getaddrinfo ENOTFOUND")]) "message")]) ∧
     ((optChainField (.obj [("message", .str "getaddrinfo ENOTFOUND")])
          "message").isNullish = true →
       (pingGET [("url", "http://x")]
          (.throws (.obj [("message", .str "getaddrinfo ENOTFOUND")]))).body =
         .obj [("ok", .bool false), ("error", .str "Failed")])) := by
  refine ⟨by decide, by decide, ?_⟩
  exact pingGET_throws_never_propagates [("url", "http://x")] "http://x"
    (.obj [("message", .str "getaddrinfo ENOTFOUND")]) (by decide) (by decide)

/-- C5: whenever the `url` query parameter is absent or empty — whatever
other parameters the request carries and whatever the outbound fetch
would have done — the route answers 400 with
`{ ok: false, error: "Missing url" }`. -/
theorem pingGET_missing_url (params : List (String × String))
    (res : OutboundResult)
    (h : searchParamsGet params "url" = none ∨
         searchParamsGet params "url" = some "") :
    pingGET params res =
      ⟨400, .obj [("ok", .bool false), ("error", .str "Missing url")]⟩ := by
  rcases h with h | h <;> simp [pingGET, h, missingUrlBody]

/-- Witness for C5: a request with an empty `url` among unrelated
parameters. -/
theorem pingGET_missing_url_witness :
    (searchParamsGet [("a", "1"), ("url", ""), ("b", "2")] "url" = none ∨
     searchParamsGet [("a", "1"), ("url", ""), ("b", "2")] "url" = some "") ∧
    pingGET [("a", "1"), ("url", ""), ("b", "2")] (.completes 200) =
      ⟨400, .obj [("ok", .bool false), ("error", .str "Missing url")]⟩ := by
  refine ⟨Or.inr (by decide), ?_⟩
  exact pingGET_missing_url [("a", "1"), ("url", ""), ("b", "2")]
    (.completes 200) (Or.inr (by decide))

/-- C10: an empty-string `message` on the thrown value is passed through
(`?? ` only replaces nullish values), so the body is
`{ ok: false, error: "" }` and not the fallback; the fallback `"Failed"`
is produced exactly by a nullish `e?.message` — a thrown value without a
message, a nullish thrown value, or a thrown primitive. -/
theorem pingGET_empty_message_passthrough (params : List (String × String))
    (u : String)
    (hu : searchParamsGet params "url" = some u) (hne : u ≠ "") :
    (pingGET params (.throws (.obj [("message", .str "")]))).body =
      .obj [("ok", .bool false), ("error", .str "")] ∧
    ((JsVal.str "") ≠ .str "Failed") ∧
    (∀ e : JsVal, (optChainField e "message").isNullish = false →
      nullishCoalesce (optChainField e "message") (.str "Failed") =
        optChainField e "message") ∧
    (pingGET params (.throws .null)).body =
      .obj [("ok", .bool false), ("error", .str "Failed")] ∧
    (∀ n : Int, (pingGET params (.throws (.num n))).body =
      .obj [("ok", .bool false), ("error", .str "Failed")]) ∧
    (pingGET params (.throws (.obj [("code", .num 5)]))).body =
      .obj [("ok", .bool false), ("error", .str "Failed")] := by
  refine ⟨?_, ?_, ?_, ?_, ?_, ?_⟩
  · simp [pingGET, hu, hne, optChainField, lookupField, nullishCoalesce]
  · intro h
    have : "" = "Failed" := by injection h
    exact absurd this (by decide)
  · intro e h
    exact nullishCoalesce_of_not_nullish _ _ h
  · simp [pingGET, hu, hne, optChainField, nullishCoalesce]
  · intro n
    simp [pingGET, hu, hne, optChainField, nullishCoalesce]
  · simp [pingGET, hu, hne, optChainField, lookupField, nullishCoalesce]

/-- Witness for C10 through a singleton parameter list. -/
theorem pingGET_empty_message_passthrough_witness :
    (searchParamsGet [("url", "http://x")] "url" = some "http://x") ∧
    ("http://x" ≠ "") ∧
    (pingGET [("url", "http://x")] (.throws (.obj [("message", .str "")]))).body =
      .obj [("ok", .bool false), ("error", .str "")] ∧
    (pingGET [("url", "http://x")] (.throws .null)).body =
      .obj [("ok", .bool false), ("error", .str "Failed")] := by
  have h := pingGET_empty_message_passthrough [("url", "http://x")] "http://x"
    (by decide) (by decide)
  exact ⟨by decide, by decide, h.1, h.2.2.2.1⟩

/-- C8: selecting a tab writes its key to `localStorage` immediately,
and on the next startup the mount effect restores exactly that key; any
persisted value that is not one of the two known keys (absent, unknown
or corrupted) leaves the selection at the default tab. -/
theorem activeTab_persist_restore (store : List (String × String))
    (k : TabKey) (saved : Option String)
    (hbad : saved ≠ some "worldmonitor" ∧ saved ≠ some "deltaintel") :
    (selectTab store k).1 = k ∧
    storeGet (selectTab store k).2 activeTabStoreKey = some k.toStr ∧
    restoreActive (storeGet (selectTab store k).2 activeTabStoreKey) = k ∧
    restoreActive saved = defaultActiveTab := by
  refine ⟨rfl, ?_, ?_, ?_⟩
  · exact storeGet_storeSet_same store activeTabStoreKey k.toStr
  · show restoreActive (storeGet (storeSet store activeTabStoreKey k.toStr)
      activeTabStoreKey) = k
    rw [storeGet_storeSet_same store activeTabStoreKey k.toStr]
    exact restoreActive_toStr k
  · rcases saved with _ | s
    · rfl
    · have h1 : s ≠ "worldmonitor" := fun h => hbad.1 (by rw [h])
      have h2 : s ≠ "deltaintel" := fun h => hbad.2 (by rw [h])
      simp [restoreActive, h1, h2]

/-- Witness for C8: select `deltaintel` over a store holding a corrupted
value, and restore from the corrupted value `"DELTAINTEL"`. -/
theorem activeTab_persist_restore_witness :
    ((some "DELTAINTEL" ≠ some "worldmonitor") ∧
     (some "DELTAINTEL" ≠ some "deltaintel")) ∧
    ((selectTab [("intelHub.activeTab", "DELTAINTEL")] .deltaintel).1 =
      .deltaintel ∧
     storeGet (selectTab [("intelHub.activeTab", "DELTAINTEL")] .deltaintel).2
       activeTabStoreKey = some TabKey.deltaintel.toStr ∧
     restoreActive
       (storeGet (selectTab [("intelHub.activeTab", "DELTAINTEL")] .deltaintel).2
         activeTabStoreKey) = .deltaintel ∧
     restoreActive (some "DELTAINTEL") = defaultActiveTab) := by
  refine ⟨⟨by decide, by decide⟩, ?_⟩
  exact activeTab_persist_restore [("intelHub.activeTab", "DELTAINTEL")]
    .deltaintel (some "DELTAINTEL") ⟨by decide, by decide⟩

/-- C9: the "open in new tab" and "refresh status" affordances are
rendered exactly when the active tab is externally probed (rendered as
an embedded frame); the integrated, natively rendered tab hides them.
The second conjunct checks the same rule in the earlier all-iframe
revision of the shell, where every tab is embedded and the affordances
are unconditional. -/
theorem affordances_iff_embedded :
    (∀ active : TabKey,
      showActionAffordances active = true ↔
        tabRenderMode active = .embedded) ∧
    (∀ active : TabKey,
      showActionAffordancesAllTabs active = true ↔
        tabRenderModeAllEmbedded active = .embedded) := by
  constructor <;>
    · intro active
      cases active <;>
        simp [showActionAffordances, tabRenderMode,
          showActionAffordancesAllTabs, tabRenderModeAllEmbedded]

/-! ## The Status Record invariant (C6) -/

/-- The state after the first `n` updates of a trace (the final state
once `n` exceeds the trace's length). -/
def stateAt (s : StatusRecord) : List ProbeEvent → Nat → StatusRecord
  | [], _ => s
  | _ :: _, 0 => s
  | e :: rest, n + 1 => stateAt (applyEvent s e) rest n

theorem stateAt_zero (s : StatusRecord) (tr : List ProbeEvent) :
    stateAt s tr 0 = s := by
  cases tr <;> rfl

theorem stateAt_nil (s : StatusRecord) (n : Nat) : stateAt s [] n = s := rfl

theorem stateAt_take (s : StatusRecord) (tr : List ProbeEvent) (n : Nat) :
    stateAt s tr n = runTrace s (tr.take n) := by
  induction tr generalizing s n with
  | nil => simp [stateAt, runTrace]
  | cons e rest ih =>
    cases n with
    | zero => simp [stateAt, runTrace, List.take]
    | succ m => simp [stateAt, runTrace, List.take, ih]

theorem applyEvent_get_other (s : StatusRecord) (e : ProbeEvent) (k : TabKey)
    (h : e.key ≠ k) : (applyEvent s e).get k = s.get k := by
  cases e with
  | start k2 => exact get_spreadSet_other s k2 k .checking (Ne.symm h)
  | resolve k2 st => exact get_spreadSet_other s k2 k st (Ne.symm h)

/-- Core induction for the amended invariant: along a trace whose events
for key `k` alternate start/resolve (no overlapping probe cycles for
`k`), if the current state has `k` at "checking" whenever a cycle for
`k` is pending, then any step that changes `k` to something other than
"checking" starts from "checking". -/
theorem seqPerKey_step_from_checking (k : TabKey) :
    ∀ (tr : List ProbeEvent) (pending : Bool) (s0 : StatusRecord) (i : Nat),
      seqPerKey k pending tr = true →
      (pending = true → s0.get k = .checking) →
      (stateAt s0 tr (i + 1)).get k ≠ (stateAt s0 tr i).get k →
      (stateAt s0 tr (i + 1)).get k ≠ .checking →
      (stateAt s0 tr i).get k = .checking := by
  intro tr
  induction tr with
  | nil =>
    intro pending s0 i _ _ hchange _
    exact absurd rfl hchange
  | cons e rest ih =>
    intro pending s0 i hseq hpend hchange hterm
    by_cases hk : e.key = k
    · cases e with
      | start k2 =>
        have hk2 : k2 = k := hk
        have hpend2 : pending = false := by
          cases pending with
          | false => rfl
          | true =>
            rw [hk2] at hseq
            simp [seqPerKey, ProbeEvent.key] at hseq
        have hseq2 : seqPerKey k true rest = true := by
          rw [hk2] at hseq
          rw [hpend2] at hseq
          simpa [seqPerKey, ProbeEvent.key] using hseq
        cases i with
        | zero =>
          -- the step is the start itself: it sets "checking", against hterm
          have h1 : stateAt s0 (ProbeEvent.start k2 :: rest) 1 =
              stateAt (applyEvent s0 (.start k2)) rest 0 := rfl
          rw [h1, stateAt_zero] at hterm
          rw [hk2] at hterm
          exact absurd (get_spreadSet_same s0 k .checking) hterm
        | succ j =>
          have h1 : ∀ m, stateAt s0 (ProbeEvent.start k2 :: rest) (m + 1) =
              stateAt (applyEvent s0 (.start k2)) rest m := fun m => rfl
          rw [h1, h1] at hchange
          rw [h1] at hterm
          rw [h1]
          refine ih true (applyEvent s0 (.start k2)) j hseq2 ?_ hchange hterm
          intro _
          rw [hk2]
          exact get_spreadSet_same s0 k .checking
      | resolve k2 st =>
        have hk2 : k2 = k := hk
        have hpend2 : pending = true := by
          cases pending with
          | true => rfl
          | false =>
            rw [hk2] at hseq
            simp [seqPerKey, ProbeEvent.key] at hseq
        have hseq2 : seqPerKey k false rest = true := by
          rw [hk2] at hseq
          rw [hpend2] at hseq
          simpa [seqPerKey, ProbeEvent.key] using hseq
        cases i with
        | zero =>
          rw [stateAt_zero]
          exact hpend hpend2
        | succ j =>
          have h1 : ∀ m, stateAt s0 (ProbeEvent.resolve k2 st :: rest) (m + 1) =
              stateAt (applyEvent s0 (.resolve k2 st)) rest m := fun m => rfl
          rw [h1, h1] at hchange
          rw [h1] at hterm
          rw [h1]
          exact ih false (applyEvent s0 (.resolve k2 st)) j hseq2
            (by simp) hchange hterm
    · have hseq2 : seqPerKey k pending rest = true := by
        simpa [seqPerKey, hk] using hseq
      have hsame : (applyEvent s0 e).get k = s0.get k :=
        applyEvent_get_other s0 e k hk
      cases i with
      | zero =>
        have h1 : stateAt s0 (e :: rest) 1 =
            stateAt (applyEvent s0 e) rest 0 := rfl
        rw [stateAt_zero]
        rw [h1, stateAt_zero] at hchange
        exact absurd hsame hchange
      | succ j =>
        have h1 : ∀ m, stateAt s0 (e :: rest) (m + 1) =
            stateAt (applyEvent s0 e) rest m := fun m => rfl
        rw [h1, h1] at hchange
        rw [h1] at hterm
        rw [h1]
        exact ih pending (applyEvent s0 e) j hseq2
          (fun hp => hsame.trans (hpend hp)) hchange hterm

/-- A probe body with a truthy `ok`. -/
def okTrueBody : JsVal := .obj [("ok", .bool true)]

/-- The racing interleaving of two probe cycles for `worldmonitor`:
both "checking" updates land first, then the two terminal updates. -/
def raceTrace : List ProbeEvent :=
  [.start .worldmonitor, .start .worldmonitor,
   .resolve .worldmonitor .online, .resolve .worldmonitor .offline]

/-- C6 (counterexample): two overlapping `checkOne` cycles for the same
tab (the source has no sequence numbers; §4.2 of the spec lets both run
independently) can interleave so that the record moves from "online" to
"offline" in one update, with no "checking" in between: `raceTrace` is
an interleaving of the updates of a cycle resolving online and a cycle
resolving offline; after its third update `worldmonitor` is "online",
and the fourth update — a single terminal update, not a "checking" one —
moves it directly to "offline". -/
theorem statusRecord_invariant_counterexample :
    Interleaving (cycleEvents .worldmonitor (.value okTrueBody))
      (cycleEvents .worldmonitor .fetchThrow) raceTrace ∧
    (runTrace initialStatus (raceTrace.take 3)).get .worldmonitor = .online ∧
    runTrace initialStatus (raceTrace.take 4) =
      applyEvent (runTrace initialStatus (raceTrace.take 3))
        (.resolve .worldmonitor .offline) ∧
    (runTrace initialStatus (raceTrace.take 4)).get .worldmonitor = .offline := by
  refine ⟨?_, rfl, rfl, rfl⟩
  have h1 : cycleEvents .worldmonitor (.value okTrueBody) =
      [.start .worldmonitor, .resolve .worldmonitor .online] := by
    simp [cycleEvents, terminalStatus, okTrueBody, jsGetField, lookupField,
      JsVal.truthy]
  have h2 : cycleEvents .worldmonitor .fetchThrow =
      [.start .worldmonitor, .resolve .worldmonitor .offline] := rfl
  rw [h1, h2]
  exact .left (.right (.left (.right .nil)))

/-- C6 (amended): the Status Record has exactly one entry per configured
tab key by construction, and as long as probe cycles for a key do not
overlap (its start/resolve updates alternate, which holds whenever each
probe resolves before the next one for that key starts), the key's
status only ever changes to "online" or "offline" from "checking" — the
synchronous "checking" update of each cycle precedes its terminal
update.  Overlapping cycles can violate this, see the counterexample. -/
theorem statusRecord_invariant_sequential (tr : List ProbeEvent) (k : TabKey)
    (i : Nat) (hseq : seqPerKey k false tr = true)
    (hchange : (stateAt initialStatus tr (i + 1)).get k ≠
      (stateAt initialStatus tr i).get k)
    (hterm : (stateAt initialStatus tr (i + 1)).get k ≠ .checking) :
    (stateAt initialStatus tr i).get k = .checking ∧
    (stateAt initialStatus tr i).keys = [.worldmonitor, .deltaintel] := by
  refine ⟨?_, rfl⟩
  refine seqPerKey_step_from_checking k tr false initialStatus i hseq ?_
    hchange hterm
  intro h
  cases h

/-- Witness for the amended C6: two back-to-back (non-overlapping)
cycles for `worldmonitor`; the step to "online" (i = 1) starts from
"checking". -/
theorem statusRecord_invariant_sequential_witness :
    (seqPerKey .worldmonitor false
      (cycleEvents .worldmonitor (.value okTrueBody) ++
        cycleEvents .worldmonitor .fetchThrow) = true) ∧
    ((stateAt initialStatus
        (cycleEvents .worldmonitor (.value okTrueBody) ++
          cycleEvents .worldmonitor .fetchThrow) 2).get .worldmonitor ≠
      (stateAt initialStatus
        (cycleEvents .worldmonitor (.value okTrueBody) ++
          cycleEvents .worldmonitor .fetchThrow) 1).get .worldmonitor) ∧
    ((stateAt initialStatus
        (cycleEvents .worldmonitor (.value okTrueBody) ++
          cycleEvents .worldmonitor .fetchThrow) 2).get .worldmonitor ≠
      .checking) ∧
    ((stateAt initialStatus
        (cycleEvents .worldmonitor (.value okTrueBody) ++
          cycleEvents .worldmonitor .fetchThrow) 1).get .worldmonitor =
        .checking ∧
     (stateAt initialStatus
        (cycleEvents .worldmonitor (.value okTrueBody) ++
          cycleEvents .worldmonitor .fetchThrow) 1).keys =
        [.worldmonitor, .deltaintel]) := by
  refine ⟨?_, ?_, ?_, ?_⟩
  · decide
  · decide
  · decide
  · exact statusRecord_invariant_sequential _ .worldmonitor 1
      (by decide) (by decide) (by decide)

/-! ## C7: the prober's percent-encoding round trip -/

theorem hexVal_hexDigitChar : ∀ n < 16, hexVal (hexDigitChar n) = some n := by
  decide

theorem uriUnescapedByte_ranges (b : Nat) (h : uriUnescapedByte b = true) :
    b ≠ 37 ∧ b ≠ 43 ∧ b ≠ 35 ∧ b ≠ 38 ∧ b ≠ 61 := by
  simp [uriUnescapedByte] at h
  omega

theorem hexDigitChar_range (n : Nat) :
    (48 ≤ hexDigitChar n ∧ hexDigitChar n ≤ 57) ∨ 65 ≤ hexDigitChar n := by
  unfold hexDigitChar
  split <;> omega

theorem percentDecode_cons_plain (b : Nat) (l : List Nat)
    (h37 : b ≠ 37) (h43 : b ≠ 43) :
    percentDecodeBytes (b :: l) = b :: percentDecodeBytes l := by
  match l with
  | [] => simp [percentDecodeBytes, decodeOneByte, h43]
  | [c] => simp [percentDecodeBytes, decodeOneByte, h43]
  | c1 :: c2 :: l2 => simp [percentDecodeBytes, decodeOneByte, h37, h43]

theorem percentDecode_escape (b : Nat) (hb : b < 256) (l : List Nat) :
    percentDecodeBytes
        (37 :: hexDigitChar (b / 16) :: hexDigitChar (b % 16) :: l) =
      b :: percentDecodeBytes l := by
  have h1 : b / 16 < 16 := by omega
  have h2 : b % 16 < 16 := by omega
  have hb2 : 16 * (b / 16) + b % 16 = b := Nat.div_add_mod b 16
  simp [percentDecodeBytes, hexVal_hexDigitChar _ h1, hexVal_hexDigitChar _ h2,
    hb2]

/-- Decoding inverts encoding, byte for byte. -/
theorem percentDecode_encode (u : List Nat) (hu : ∀ b ∈ u, b < 256) :
    percentDecodeBytes (encodeURIComponentBytes u) = u := by
  induction u with
  | nil => rfl
  | cons b rest ih =>
    have hb : b < 256 := hu b (List.mem_cons_self ..)
    have ih2 := ih fun c hc => hu c (List.mem_cons_of_mem _ hc)
    show percentDecodeBytes (encodeByte b ++ encodeURIComponentBytes rest) =
      b :: rest
    by_cases h : uriUnescapedByte b
    · have hne := uriUnescapedByte_ranges b h
      rw [show encodeByte b = [b] from by simp [encodeByte, h],
        List.cons_append, List.nil_append,
        percentDecode_cons_plain b _ hne.1 hne.2.1, ih2]
    · rw [show encodeByte b =
          [37, hexDigitChar (b / 16), hexDigitChar (b % 16)] from by
            simp [encodeByte, h],
        List.cons_append, List.cons_append, List.cons_append,
        List.nil_append, percentDecode_escape b hb, ih2]

/-- Every byte emitted by the encoder is either an unescaped byte, `%`,
or a hex digit; in particular none of them is `#` (35), `&` (38), or
`=` (61) — the delimiters of query parsing. -/
theorem encodeByte_no_delim (b c : Nat) (hc : c ∈ encodeByte b) :
    c ≠ 35 ∧ c ≠ 38 ∧ c ≠ 61 := by
  unfold encodeByte at hc
  by_cases h : uriUnescapedByte b
  · rw [if_pos h] at hc
    have hcb : c = b := by simpa using hc
    have hr := uriUnescapedByte_ranges b h
    subst hcb
    exact ⟨hr.2.2.1, hr.2.2.2.1, hr.2.2.2.2⟩
  · rw [if_neg h] at hc
    simp at hc
    have hd1 := hexDigitChar_range (b / 16)
    have hd2 := hexDigitChar_range (b % 16)
    rcases hc with hc | hc | hc <;> omega

theorem encode_no_delim (u : List Nat) :
    ∀ c ∈ encodeURIComponentBytes u, c ≠ 35 ∧ c ≠ 38 ∧ c ≠ 61 := by
  induction u with
  | nil => intro c hc; cases hc
  | cons b rest ih =>
    intro c hc
    rcases List.mem_append.mp hc with hc | hc
    · exact encodeByte_no_delim b c hc
    · exact ih c hc

theorem takeUntilHash_all (l : List Nat) (h : ∀ b ∈ l, b ≠ 35) :
    takeUntilHash l = l := by
  induction l with
  | nil => rfl
  | cons b rest ih =>
    have hb : b ≠ 35 := h b (List.mem_cons_self ..)
    simp [takeUntilHash, hb, ih fun c hc => h c (List.mem_cons_of_mem _ hc)]

theorem splitOnAmp_all (l : List Nat) (h : ∀ b ∈ l, b ≠ 38) :
    splitOnAmp l = [l] := by
  induction l with
  | nil => rfl
  | cons b rest ih =>
    have hb : b ≠ 38 := h b (List.mem_cons_self ..)
    simp [splitOnAmp, hb, ih fun c hc => h c (List.mem_cons_of_mem _ hc)]

theorem afterQuestionMark_ping (v : List Nat) :
    afterQuestionMark (pingPathBytes ++ v) = [117, 114, 108, 61] ++ v := by
  simp [pingPathBytes, afterQuestionMark]

theorem splitFirstEq_url (v : List Nat) :
    splitFirstEq ([117, 114, 108, 61] ++ v) = ([117, 114, 108], v) := by
  simp [splitFirstEq]

/-- C7: the Status Prober embeds the target URL into its proxy request
percent-encoded exactly once: for any byte sequence `u`, the query of
the request string `/api/ping?url=${encodeURIComponent(url)}` parses to
a single `url` parameter whose decoded value is `u` again,
byte for byte — including bytes for `?`, `&`, `:`, `/`, spaces, and
non-ASCII UTF-8 bytes. -/
theorem checkOne_url_roundTrip (u : List Nat) (hu : ∀ b ∈ u, b < 256) :
    getParamBytes (queryOf (checkOneRequestURL u)) urlParamNameBytes =
      some u := by
  have hnd := encode_no_delim u
  have hq : queryOf (checkOneRequestURL u) =
      [117, 114, 108, 61] ++ encodeURIComponentBytes u := by
    rw [queryOf, checkOneRequestURL, afterQuestionMark_ping]
    apply takeUntilHash_all
    intro b hb
    rcases List.mem_append.mp hb with hb | hb
    · simp at hb; omega
    · exact (hnd b hb).1
  rw [hq]
  have hsplit : splitOnAmp ([117, 114, 108, 61] ++ encodeURIComponentBytes u) =
      [[117, 114, 108, 61] ++ encodeURIComponentBytes u] := by
    apply splitOnAmp_all
    intro b hb
    rcases List.mem_append.mp hb with hb | hb
    · simp at hb; omega
    · exact (hnd b hb).2.1
  rw [getParamBytes, parseUrlEncoded, hsplit]
  simp only [List.filter, List.map]
  rw [splitFirstEq_url]
  simp only [List.isEmpty, List.cons_append]
  rw [percentDecode_encode u hu]
  simp [urlParamNameBytes, percentDecodeBytes, decodeOneByte, List.find?]

/-- Witness for C7: the URL `http://h:1/a b?x=1&y=é` — reserved
characters, a space, and the two UTF-8 bytes of `é` (195, 169). -/
theorem checkOne_url_roundTrip_witness :
    (∀ b ∈ [104, 116, 116, 112, 58, 47, 47, 104, 58, 49, 47, 97, 32, 98,
      63, 120, 61, 49, 38, 121, 61, 195, 169], b < 256) ∧
    getParamBytes
        (queryOf (checkOneRequestURL
          [104, 116, 116, 112, 58, 47, 47, 104, 58, 49, 47, 97, 32, 98,
           63, 120, 61, 49, 38, 121, 61, 195, 169]))
        urlParamNameBytes =
      some [104, 116, 116, 112, 58, 47, 47, 104, 58, 49, 47, 97, 32, 98,
        63, 120, 61, 49, 38, 121, 61, 195, 169] := by
  refine ⟨by decide, ?_⟩
  exact checkOne_url_roundTrip
    [104, 116, 116, 112, 58, 47, 47, 104, 58, 49, 47, 97, 32, 98,
     63, 120, 61, 49, 38, 121, 61, 195, 169] (by decide)
